import Mathlib

/-!
Verification of the MinedMap region-to-tile rendering pipeline
(src/src/MinedMap.cpp) against its natural-language specification.

The C++ file is shallowly embedded below.  External collaborators that the
spec explicitly excludes (the binary region parser `World::Region::visitChunks`,
the chunk decoder `Chunk::getTopLayer`, and the PNG codec) are treated as
oracles: the environment record `Env` carries their outcome (success/failure)
and, for the region visitor, the delivered list of `(X, Z, topLayer)` triples.
The POSIX filesystem is modelled as a partial map from path strings to files
carrying a payload grid and (mtime, atime) timestamps; `stat`, `rename`,
`unlink` and `utimensat` act on that map exactly as the source code uses them.
-/

namespace MinedMap

/-- `struct timespec` as used through `st_mtim`: seconds and nanoseconds. -/
structure Timespec where
  sec : Int
  nsec : Int
deriving DecidableEq, Repr

/-- The pixel grid `uint32_t image[DIM][DIM]`, as a total function from
(row, column) to the 32-bit cell value.  The C array is bounded by
`DIM = World::Region::SIZE * World::Chunk::SIZE`; `addChunk` performs no bounds
checks (the visitor guarantees in-range chunk coordinates), so the model
leaves the grid unbounded. -/
def Grid : Type := Nat → Nat → Nat

/-- Zero-initialization `uint32_t image[DIM][DIM] = {}`. -/
def zeroGrid : Grid := fun _ _ => 0

/-- One array store `image[r][c] = v`. -/
def writeCell (g : Grid) (r c v : Nat) : Grid :=
  fun r2 c2 => if r2 = r ∧ c2 = c then v else g r2 c2

/-- Modelled from the spec: `World::Chunk::SIZE` (the chunk side length) lives
in a header that is not part of this repository slice; the spec fixes the
chunk side at 16 ("a region with chunk side 16"). -/
def chunkSide : Nat := 16

/-- `htonl` on a 32-bit value: the returned word, read in the host's memory
order, holds the bytes of `v` in network (big-endian) order.  Modelled as the
byte reversal of `v mod 2^32` (the little-endian host case; the stored bytes,
which are what the PNG encoder consumes, are the network-order bytes of `v`
either way). -/
def htonl (v : Nat) : Nat :=
  let w := v % 4294967296
  (w % 256) * 16777216 + (w / 256 % 256) * 65536 + (w / 65536 % 256) * 256 + w / 16777216

/-- A chunk as `addChunk` consumes it: `(X, Z, layer)` where `layer x z` is
`chunk->getTopLayer().blocks[x][z].getColor()`. -/
def ChunkEntry : Type := Nat × Nat × (Nat → Nat → Nat)

/-- The chunk's region-local slot `(X, Z)`. -/
def slot (e : ChunkEntry) : Nat × Nat := (e.1, e.2.1)

/-- `static void addChunk(uint32_t image[DIM][DIM], size_t X, size_t Z, const
World::Chunk *chunk)`: the two nested loops
`for x < SIZE: for z < SIZE: image[Z*SIZE+z][X*SIZE+x] = htonl(blocks[x][z].getColor())`. -/
def addChunk (g : Grid) (X Z : Nat) (layer : Nat → Nat → Nat) : Grid :=
  (List.range chunkSide).foldl
    (fun g1 x =>
      (List.range chunkSide).foldl
        (fun g2 z => writeCell g2 (Z * chunkSide + z) (X * chunkSide + x) (htonl (layer x z)))
        g1)
    g

/-- Folding the visitor's callback over the delivered chunks, starting from an
arbitrary grid. -/
def applyChunks (g : Grid) (l : List ChunkEntry) : Grid :=
  l.foldl (fun acc e => addChunk acc e.1 e.2.1 e.2.2) g

/-- The grid built by one regeneration pass: zero-initialized, then
`visitChunks` drives `addChunk` once per delivered chunk. -/
def composite (l : List ChunkEntry) : Grid := applyChunks zeroGrid l

/-- The sequence of cells assigned by `addChunk` for the chunk slot `(X, Z)`,
in loop order: one write per local column `(x, z)`. -/
def chunkCells (X Z : Nat) : List (Nat × Nat) :=
  (List.range chunkSide).flatMap
    (fun x => (List.range chunkSide).map (fun z => (Z * chunkSide + z, X * chunkSide + x)))

/-- All cells assigned during one regeneration pass, in order. -/
def writeEvents (l : List ChunkEntry) : List (Nat × Nat) :=
  l.flatMap (fun e => chunkCells e.1 e.2.1)

/-- Two chunk entries sit at distinct region-local slots. -/
def slotNe (a b : ChunkEntry) : Prop := ¬(a.1 = b.1 ∧ a.2.1 = b.2.1)

/-- A file on the modelled filesystem: its payload (the pixel grid it encodes;
irrelevant for non-image files) and its modification and access timestamps. -/
structure File where
  img : Grid
  mtime : Timespec
  atime : Timespec

/-- The filesystem: a partial map from paths to files. -/
def FS : Type := String → Option File

/-- Point update of the filesystem (file creation/overwrite for `some`,
`unlink` for `none`; `unlink` on a missing path is a reported no-op in the
source and leaves the map unchanged, which coincides with writing `none`). -/
def updateFS (fs : FS) (p : String) (v : Option File) : FS :=
  fun q => if q = p then v else fs q

/-- `stat(path)` as the source uses it: only `st_mtim` is consumed. -/
def statMtime (fs : FS) (p : String) : Option Timespec :=
  (fs p).map (fun f => f.mtime)

/-- The source's up-to-date test (lines 109-110):
`instat.st_mtim.tv_sec < outstat.st_mtim.tv_sec ||
 (instat.st_mtim.tv_sec == outstat.st_mtim.tv_sec &&
  instat.st_mtim.tv_nsec <= outstat.st_mtim.tv_nsec)`. -/
def upToDateCheck (instat outstat : Timespec) : Bool :=
  decide (instat.sec < outstat.sec ∨ (instat.sec = outstat.sec ∧ instat.nsec ≤ outstat.nsec))

/-- Oracle outcomes of the excluded collaborators and of the fallible system
calls during one `doRegion` invocation. -/
structure Env where
  /-- does `World::Region::visitChunks` succeed (no decode exception)? -/
  decodeOk : Bool
  /-- the chunks the visitor delivers, in delivery order -/
  chunks : List ChunkEntry
  /-- does `writePNG` succeed (no encode exception)? -/
  encodeOk : Bool
  /-- the timestamp the freshly written temporary file carries (its creation
  / last-write wall-clock time) -/
  encodeTime : Timespec
  /-- does `utimensat` succeed? -/
  utimeOk : Bool
  /-- does `std::rename` succeed? -/
  renameOk : Bool

/-- Outcome of one `doRegion` call, mirroring its diagnostic messages. -/
inductive Status where
  | inputStatFail
  | skippedUpToDate
  | decodeFailed
  | encodeFailed
  | renameFailed
  | published
deriving DecidableEq, Repr

/-- Did `doRegion` enter the generation path (spec: REGENERATE)? -/
def Status.regenerated : Status → Bool
  | .decodeFailed => true
  | .encodeFailed => true
  | .renameFailed => true
  | .published => true
  | _ => false

/-- The generation part of `doRegion` (lines 116-138): the `try` block writing
`output + ".tmp"` and the exception handler that unlinks it. -/
def doRegionGen (env : Env) (fs : FS) (output : String) (instat : Timespec) : FS × Status :=
  let tmpfile := output ++ ".tmp"
  if env.decodeOk = false then
    -- visitChunks throws; catch handler unlinks tmpfile
    (updateFS fs tmpfile none, Status.decodeFailed)
  else if env.encodeOk = false then
    -- writePNG throws mid-stream (tmpfile possibly partially written);
    -- catch handler unlinks tmpfile
    (updateFS fs tmpfile none, Status.encodeFailed)
  else
    let image := composite env.chunks
    -- writePNG succeeded: tmpfile holds the full encoded grid
    let fs1 := updateFS fs tmpfile (some ⟨image, env.encodeTime, env.encodeTime⟩)
    -- utimensat(AT_FDCWD, tmpfile, {instat.st_mtim, instat.st_mtim}, 0);
    -- failure is only a warning
    let fs2 := if env.utimeOk then updateFS fs1 tmpfile (some ⟨image, instat, instat⟩) else fs1
    if env.renameOk then
      -- std::rename(tmpfile, output) moves the file
      (updateFS (updateFS fs2 tmpfile none) output (fs2 tmpfile), Status.published)
    else
      -- rename failed: report and unlink tmpfile
      (updateFS fs2 tmpfile none, Status.renameFailed)

/-- `static void doRegion(const std::string &input, const std::string &output)`
(lines 100-139). -/
def doRegion (env : Env) (fs : FS) (input output : String) : FS × Status :=
  match statMtime fs input with
  | none => (fs, Status.inputStatFail)
  | some instat =>
    match statMtime fs output with
    | some outstat =>
      if upToDateCheck instat outstat then (fs, Status.skippedUpToDate)
      else doRegionGen env fs output instat
    | none => doRegionGen env fs output instat

/-- The status `doRegionGen` reports, as a function of the oracles alone. -/
def genStatus (env : Env) : Status :=
  if env.decodeOk = false then Status.decodeFailed
  else if env.encodeOk = false then Status.encodeFailed
  else if env.renameOk then Status.published
  else Status.renameFailed

/-! ### Filename scanning (`sscanf(d_name, "r.%i.%i.mca", &x, &z)` and the
`snprintf`/`memcmp` round trip, lines 163-168) -/

/-- The NUL terminator byte of a C string. -/
def nulChar : Char := Char.ofNat 0

/-- The whitespace bytes `%i` skips (`isspace` in the C locale). -/
def isSpaceByte (c : Char) : Bool :=
  c == ' ' || c == Char.ofNat 9 || c == Char.ofNat 10 ||
    c == Char.ofNat 11 || c == Char.ofNat 12 || c == Char.ofNat 13

/-- Decimal digit test. -/
def isDecDigit (c : Char) : Bool :=
  decide (48 ≤ c.toNat) && decide (c.toNat ≤ 57)

/-- Octal digit test. -/
def isOctDigit (c : Char) : Bool :=
  decide (48 ≤ c.toNat) && decide (c.toNat ≤ 55)

/-- Hexadecimal digit test. -/
def isHexDigit (c : Char) : Bool :=
  isDecDigit c || (decide (97 ≤ c.toNat) && decide (c.toNat ≤ 102)) ||
    (decide (65 ≤ c.toNat) && decide (c.toNat ≤ 70))

/-- Numeric value of a digit (decimal, lowercase hex, uppercase hex). -/
def digitValue (c : Char) : Nat :=
  if isDecDigit c then c.toNat - 48
  else if decide (97 ≤ c.toNat) && decide (c.toNat ≤ 102) then c.toNat - 97 + 10
  else c.toNat - 65 + 10

/-- Accumulate a digit string in the given base. -/
def digitsValue (base : Nat) (ds : List Char) : Nat :=
  ds.foldl (fun a c => a * base + digitValue c) 0

/-- The unsigned part of a `%i` conversion (`strtol` with base 0): a `0x`/`0X`
prefix followed by at least one hex digit selects base 16; otherwise a leading
`0` selects base 8 (the `0` itself is the first digit); otherwise at least one
decimal digit is required.  Returns the value and the unconsumed rest, or
`none` on a matching failure.  The model parses to an unbounded integer
(`INT_MAX` overflow is undefined behavior in the source and is not modelled). -/
def scanUnsigned (l : List Char) : Option (Nat × List Char) :=
  match l with
  | '0' :: c :: rest =>
    if (c == 'x' || c == 'X') &&
        (match rest with | d :: _ => isHexDigit d | [] => false) then
      some (digitsValue 16 (rest.takeWhile isHexDigit), rest.dropWhile isHexDigit)
    else
      some (digitsValue 8 ((c :: rest).takeWhile isOctDigit), (c :: rest).dropWhile isOctDigit)
  | '0' :: [] => some (0, [])
  | _ =>
    if (l.takeWhile isDecDigit).isEmpty then none
    else some (digitsValue 10 (l.takeWhile isDecDigit), l.dropWhile isDecDigit)

/-- A full `%i` conversion: optional whitespace, optional sign, unsigned part. -/
def scanInt (l0 : List Char) : Option (Int × List Char) :=
  let l1 := l0.dropWhile isSpaceByte
  match l1 with
  | '-' :: r => (scanUnsigned r).map (fun p => (-(p.1 : Int), p.2))
  | '+' :: r => (scanUnsigned r).map (fun p => ((p.1 : Int), p.2))
  | r => (scanUnsigned r).map (fun p => ((p.1 : Int), p.2))

/-- `sscanf(name, "r.%i.%i.mca", &x, &z) == 2`: literal `r`, literal `.`, one
`%i`, literal `.`, one `%i`.  The trailing `.mca` literals are matched after
both conversions have already succeeded, so a failure there does not change
the return value of 2; the parsed values are returned regardless of the rest. -/
def scanName (l : List Char) : Option (Int × Int) :=
  match l with
  | 'r' :: '.' :: r1 =>
    match scanInt r1 with
    | none => none
    | some (x, r2) =>
      match r2 with
      | '.' :: r3 =>
        match scanInt r3 with
        | none => none
        | some (z, _) => some (x, z)
      | _ => none
  | _ => none

/-- `printf`-style decimal rendering of an `int` (`%i` formatting). -/
def intDec (i : Int) : List Char :=
  if i < 0 then '-' :: Nat.toDigits 10 i.natAbs else Nat.toDigits 10 i.natAbs

/-- `snprintf(buf, l, "r.%i.%i.mca", x, z)`: the canonical formatting of the
parsed coordinates (before truncation to the buffer size). -/
def formatName (x z : Int) : List Char :=
  'r' :: '.' :: (intDec x ++ '.' :: intDec z ++ ('.' :: 'm' :: 'c' :: 'a' :: []))

/-- The validation at lines 163-168.  With `l = strlen(name) + 1`,
`snprintf(buf, l, ...)` stores at most `l - 1 = name.length` characters of the
canonical formatting plus a NUL terminator, and `memcmp(name, buf, l)`
compares `l` bytes.  Bytes of `buf` past the stored terminator are
unspecified, but the comparison is decided before reaching them: `name` holds
no interior NUL, so a mismatch with the terminator occurs first.  The bytes
that are compared are therefore exactly
`formatName x z |>.take name.length ++ [nulChar]` against `name ++ [nulChar]`.
Returns the accepted coordinates, or `none` when the entry is skipped. -/
def checkNameChars (name : List Char) : Option (Int × Int) :=
  match scanName name with
  | none => none
  | some (x, z) =>
    if List.isPrefixOf ((formatName x z).take name.length ++ [nulChar]) (name ++ [nulChar])
    then some (x, z) else none

/-- String-level wrapper used by the directory loop. -/
def checkName (name : String) : Bool :=
  (checkNameChars name.data).isSome

/-! ### The batch driver (`main`, lines 141-189) -/

/-- `inputdir + "/" + name` (line 182). -/
def regionInputPath (inputdir name : String) : String :=
  inputdir ++ "/" ++ name

/-- `outputdir + "/" + name.substr(0, name.length()-3) + "png"` (line 182). -/
def regionOutputPath (outputdir name : String) : String :=
  outputdir ++ "/" ++ String.mk (name.data.take (name.data.length - 3)) ++ "png"

/-- The `readdir` loop (lines 161-184): each entry whose name passes the
round-trip validation is handed to `doRegion`; everything else is skipped.
The recorded `(name, status)` pairs stand for the per-region diagnostic lines
written to stderr.  (The `minX`/`maxX`/`minZ`/`maxZ` bounding-box fold feeds
no output in this translation unit and is not modelled.) -/
def runBatch (inputdir outputdir : String) (fs : FS) :
    List (String × Env) → FS × List (String × Status)
  | [] => (fs, [])
  | e :: rest =>
    if checkName e.1 then
      let r := doRegion e.2 fs (regionInputPath inputdir e.1) (regionOutputPath outputdir e.1)
      let b := runBatch inputdir outputdir r.1 rest
      (b.1, (e.1, r.2) :: b.2)
    else runBatch inputdir outputdir fs rest

/-- `main` (lines 141-189): usage check (`argc < 3` returns 1), `opendir`
failure returns 1, otherwise the batch runs and `main` returns 0. -/
def mainRun (argc : Nat) (opendirOk : Bool) (inputdir outputdir : String)
    (entries : List (String × Env)) (fs : FS) : Nat × FS × List (String × Status) :=
  if argc < 3 then (1, fs, [])
  else if opendirOk = false then (1, fs, [])
  else
    let r := runBatch inputdir outputdir fs entries
    (0, r.1, r.2)

/-- Modelled from the spec: "CLI surface: `<program> <data-directory>
<output-directory>`" — a correct invocation passes exactly two operands, so
`argc` (which counts the program name) is wrong exactly when it differs
from 3. -/
def specWrongArgCount (argc : Nat) : Prop := argc ≠ 3

/-! ### Concrete fixtures used by witnesses and counterexamples -/

/-- The empty filesystem. -/
def fsEmpty : FS := fun _ => none

/-- A sample input region path. -/
def pIn : String := "world/region/r.0.0.mca"

/-- The matching output tile path. -/
def pOut : String := "out/r.0.0.png"

/-- A sample region file with modification time (5 s, 2 ns). -/
def inFile : File := ⟨zeroGrid, ⟨5, 2⟩, ⟨5, 2⟩⟩

/-- Filesystem holding only the input region file. -/
def fsIn : FS := updateFS fsEmpty pIn (some inFile)

/-- Filesystem holding the input and a newer output (mtime (7 s, 0 ns)). -/
def fsBoth : FS := updateFS fsIn pOut (some ⟨zeroGrid, ⟨7, 0⟩, ⟨7, 0⟩⟩)

/-- Environment in which every collaborator and system call succeeds. -/
def envAllOk : Env := ⟨true, [], true, ⟨9, 9⟩, true, true⟩

/-- Everything succeeds except `utimensat`; the fresh temporary file keeps its
creation time (9 s, 9 ns). -/
def envNoUtime : Env := ⟨true, [], true, ⟨9, 9⟩, false, true⟩

/-- `utimensat` fails and the encode wall-clock time (4 s, 0 ns) is older than
the input's mtime (5 s, 2 ns). -/
def envNoUtimeOld : Env := ⟨true, [], true, ⟨4, 0⟩, false, true⟩

/-- Everything succeeds except the final `std::rename`. -/
def envNoRename : Env := ⟨true, [], true, ⟨9, 9⟩, true, false⟩

/-- `visitChunks` throws (decode failure). -/
def envNoDecode : Env := ⟨false, [], true, ⟨9, 9⟩, true, true⟩

/-- A sample top-layer color function. -/
def sampleLayer : Nat → Nat → Nat := fun x z => x * 100 + z

/-- Two sample chunks at distinct slots. -/
def wChunks : List ChunkEntry := [(0, 0, fun _ _ => 1), (1, 0, fun _ _ => 2)]

/-- The same two chunks delivered in the opposite order. -/
def wChunksRev : List ChunkEntry := [(1, 0, fun _ _ => 2), (0, 0, fun _ _ => 1)]

/-- Region filename fixtures for the batch claims. -/
def nm00 : String := "r.0.0.mca"

/-- Second region filename fixture. -/
def nm10 : String := "r.1.0.mca"

/-- A non-canonical prefix of a region filename (accepted by the source's
truncated round-trip comparison). -/
def nmPre : String := "r.1.2"

/-- Leading-zero filename fixture. -/
def nm01 : String := "r.01.2.mca"

/-- Negative-coordinate filename fixture. -/
def nmNeg : String := "r.-5.10.mca"

/-- Sample data directory argument. -/
def dIn : String := "data"

/-- Sample output directory argument. -/
def dOut : String := "tiles"

/-- The first batch entry's input path under `dIn`. -/
def pBatchIn : String := "data/r.0.0.mca"

/-- Filesystem for the batch witness: the first region's input exists, its
output does not. -/
def fsBatch : FS := updateFS fsEmpty pBatchIn (some inFile)

/-! ## Helper lemmas: the pixel grid -/

/-- Evaluating the inner `for z` loop of `addChunk`: it writes the column
strip `{(A+z, B) | z < n}` and leaves every other cell alone. -/
theorem foldZ_eval (v : Nat → Nat) (g : Grid) (A B n r c : Nat) :
    ((List.range n).foldl (fun g2 z => writeCell g2 (A + z) B (v z)) g) r c
      = if A ≤ r ∧ r < A + n ∧ c = B then v (r - A) else g r c := by
  induction n with
  | zero =>
    have hno : ¬(A ≤ r ∧ r < A + 0 ∧ c = B) := by omega
    simp only [List.range_zero, List.foldl_nil]
    rw [if_neg hno]
  | succ n ih =>
    rw [List.range_succ, List.foldl_append]
    simp only [List.foldl_cons, List.foldl_nil]
    show (if r = A + n ∧ c = B then v n else
        ((List.range n).foldl (fun g2 z => writeCell g2 (A + z) B (v z)) g) r c) = _
    by_cases h1 : r = A + n ∧ c = B
    · have hy : A ≤ r ∧ r < A + (n + 1) ∧ c = B := by omega
      have hv : r - A = n := by omega
      rw [if_pos h1, if_pos hy, hv]
    · rw [if_neg h1, ih]
      by_cases h2 : A ≤ r ∧ r < A + n ∧ c = B
      · have hy : A ≤ r ∧ r < A + (n + 1) ∧ c = B := by omega
        rw [if_pos h2, if_pos hy]
      · have hn : ¬(A ≤ r ∧ r < A + (n + 1) ∧ c = B) := by omega
        rw [if_neg h2, if_neg hn]

/-- Evaluating the outer `for x` loop of `addChunk` over `x < n`. -/
theorem foldX_eval (w : Nat → Nat → Nat) (g : Grid) (RB CB n r c : Nat) :
    ((List.range n).foldl
        (fun g1 x =>
          (List.range chunkSide).foldl
            (fun g2 z => writeCell g2 (RB + z) (CB + x) (w x z)) g1) g) r c
      = if RB ≤ r ∧ r < RB + chunkSide ∧ CB ≤ c ∧ c < CB + n
        then w (c - CB) (r - RB) else g r c := by
  induction n with
  | zero =>
    have hno : ¬(RB ≤ r ∧ r < RB + chunkSide ∧ CB ≤ c ∧ c < CB + 0) := by omega
    simp only [List.range_zero, List.foldl_nil]
    rw [if_neg hno]
  | succ n ih =>
    rw [List.range_succ, List.foldl_append]
    simp only [List.foldl_cons, List.foldl_nil]
    rw [foldZ_eval]
    by_cases h1 : RB ≤ r ∧ r < RB + chunkSide ∧ c = CB + n
    · have hy : RB ≤ r ∧ r < RB + chunkSide ∧ CB ≤ c ∧ c < CB + (n + 1) := by omega
      have hv : c - CB = n := by omega
      rw [if_pos h1, if_pos hy, hv]
    · rw [if_neg h1, ih]
      by_cases h2 : RB ≤ r ∧ r < RB + chunkSide ∧ CB ≤ c ∧ c < CB + n
      · have hy : RB ≤ r ∧ r < RB + chunkSide ∧ CB ≤ c ∧ c < CB + (n + 1) := by omega
        rw [if_pos h2, if_pos hy]
      · have hn : ¬(RB ≤ r ∧ r < RB + chunkSide ∧ CB ≤ c ∧ c < CB + (n + 1)) := by omega
        rw [if_neg h2, if_neg hn]

/-- Pointwise characterization of `addChunk`: inside the chunk's
`chunkSide × chunkSide` block the cell holds the network-order color of the
matching local column; outside the block the grid is untouched. -/
theorem addChunk_eval (g : Grid) (X Z : Nat) (layer : Nat → Nat → Nat) (r c : Nat) :
    addChunk g X Z layer r c
      = if Z * chunkSide ≤ r ∧ r < Z * chunkSide + chunkSide ∧
            X * chunkSide ≤ c ∧ c < X * chunkSide + chunkSide
        then htonl (layer (c - X * chunkSide) (r - Z * chunkSide)) else g r c := by
  unfold addChunk
  exact foldX_eval (fun x z => htonl (layer x z)) g (Z * chunkSide) (X * chunkSide) chunkSide r c

/-- Membership in a chunk's write-target list is exactly membership in its
grid block. -/
theorem mem_chunkCells (X Z r c : Nat) :
    (r, c) ∈ chunkCells X Z
      ↔ Z * chunkSide ≤ r ∧ r < Z * chunkSide + chunkSide ∧
          X * chunkSide ≤ c ∧ c < X * chunkSide + chunkSide := by
  unfold chunkCells
  simp only [List.mem_flatMap, List.mem_map, List.mem_range]
  constructor
  · rintro ⟨x, hx, z, hz, h⟩
    have h1 : Z * chunkSide + z = r := congrArg Prod.fst h
    have h2 : X * chunkSide + x = c := congrArg Prod.snd h
    omega
  · rintro ⟨h1, h2, h3, h4⟩
    refine ⟨c - X * chunkSide, by omega, r - Z * chunkSide, by omega, ?_⟩
    have e1 : Z * chunkSide + (r - Z * chunkSide) = r := by omega
    have e2 : X * chunkSide + (c - X * chunkSide) = c := by omega
    rw [e1, e2]

/-- Within one chunk every write targets a distinct cell. -/
theorem nodup_chunkCells (X Z : Nat) : (chunkCells X Z).Nodup := by
  unfold chunkCells
  rw [List.nodup_flatMap]
  constructor
  · intro x _
    refine List.Nodup.map ?_ (List.nodup_range _)
    intro a b h
    simp only [Prod.mk.injEq] at h
    omega
  · refine (List.pairwise_lt_range _).imp ?_
    intro a b hab p hp1 hp2
    simp only [List.mem_map, List.mem_range] at hp1 hp2
    obtain ⟨z1, _, e1⟩ := hp1
    obtain ⟨z2, _, e2⟩ := hp2
    have e3 := e1.trans e2.symm
    simp only [Prod.mk.injEq] at e3
    omega

/-- Chunks at distinct slots write pairwise disjoint sets of cells. -/
theorem chunkCells_disjoint {X Z X2 Z2 : Nat} (h : ¬(X = X2 ∧ Z = Z2)) :
    List.Disjoint (chunkCells X Z) (chunkCells X2 Z2) := by
  intro p hp1 hp2
  obtain ⟨r, c⟩ := p
  rw [mem_chunkCells] at hp1 hp2
  simp only [chunkSide] at hp1 hp2
  omega

/-- A cell targeted by no write is left at the starting grid's value. -/
theorem applyChunks_not_mem (l : List ChunkEntry) (g : Grid) (r c : Nat)
    (h : (r, c) ∉ writeEvents l) : applyChunks g l r c = g r c := by
  induction l generalizing g with
  | nil => rfl
  | cons e rest ih =>
    unfold writeEvents at h
    rw [List.flatMap_cons, List.mem_append] at h
    push_neg at h
    show applyChunks (addChunk g e.1 e.2.1 e.2.2) rest r c = g r c
    rw [ih _ h.2, addChunk_eval, if_neg]
    intro hb
    exact h.1 ((mem_chunkCells e.1 e.2.1 r c).mpr hb)

/-- Unfolding one step of the chunk fold. -/
theorem applyChunks_cons (g : Grid) (e : ChunkEntry) (l : List ChunkEntry) :
    applyChunks g (e :: l) = applyChunks (addChunk g e.1 e.2.1 e.2.2) l := rfl

/-- The empty chunk fold. -/
theorem applyChunks_nil (g : Grid) : applyChunks g [] = g := rfl

/-- `addChunk` calls for distinct slots commute. -/
theorem addChunk_comm_aux (g : Grid) (X Z : Nat) (lay : Nat → Nat → Nat)
    (X2 Z2 : Nat) (lay2 : Nat → Nat → Nat) (h : ¬(X = X2 ∧ Z = Z2)) :
    addChunk (addChunk g X Z lay) X2 Z2 lay2 = addChunk (addChunk g X2 Z2 lay2) X Z lay := by
  funext r c
  rw [addChunk_eval, addChunk_eval, addChunk_eval, addChunk_eval]
  by_cases h1 : Z * chunkSide ≤ r ∧ r < Z * chunkSide + chunkSide ∧
      X * chunkSide ≤ c ∧ c < X * chunkSide + chunkSide
  · by_cases h2 : Z2 * chunkSide ≤ r ∧ r < Z2 * chunkSide + chunkSide ∧
        X2 * chunkSide ≤ c ∧ c < X2 * chunkSide + chunkSide
    · exfalso
      simp only [chunkSide] at h1 h2
      omega
    · rw [if_neg h2, if_pos h1, if_pos h1]
  · by_cases h2 : Z2 * chunkSide ≤ r ∧ r < Z2 * chunkSide + chunkSide ∧
        X2 * chunkSide ≤ c ∧ c < X2 * chunkSide + chunkSide
    · rw [if_pos h2, if_neg h1, if_pos h2]
    · rw [if_neg h2, if_neg h1, if_neg h1, if_neg h2]

/-- `slotNe` is symmetric. -/
theorem slotNe_symm {a b : ChunkEntry} (h : slotNe a b) : slotNe b a := by
  intro hc
  exact h ⟨hc.1.symm, hc.2.symm⟩

/-- Folding the chunk list in any order over pairwise-distinct slots yields
the same grid. -/
theorem applyChunks_perm {l l2 : List ChunkEntry} (hp : l.Perm l2) :
    ∀ (_hd : l.Pairwise slotNe) (g : Grid), applyChunks g l = applyChunks g l2 := by
  induction hp with
  | nil => intro _ _; rfl
  | cons e p ih =>
    intro hd g
    have hd2 := (List.pairwise_cons.mp hd).2
    rw [applyChunks_cons, applyChunks_cons]
    exact ih hd2 _
  | swap a b t =>
    intro hd g
    have hba : slotNe b a := (List.pairwise_cons.mp hd).1 a (List.mem_cons_self _ _)
    rw [applyChunks_cons, applyChunks_cons, applyChunks_cons, applyChunks_cons,
      addChunk_comm_aux g b.1 b.2.1 b.2.2 a.1 a.2.1 a.2.2 hba]
  | trans p1 _p2 ih1 ih2 =>
    intro hd g
    have hd2 := (p1.pairwise_iff (fun h => slotNe_symm h)).mp hd
    exact (ih1 hd g).trans (ih2 hd2 g)

/-! ## Claims C2, C9, C10 -/

/-- C2: for every chunk at region-local slot `(X, Z)` and every local column
`(x, z)` in range, `addChunk` stores that column's top-layer color, converted
to network byte order, at grid row `Z*chunkSide+z`, column `X*chunkSide+x`;
in particular a chunk at `(1, 0)` with chunk side 16 puts column `(3, 5)` at
row 5, column 19. -/
theorem chunk_column_placement :
    (∀ (g : Grid) (X Z : Nat) (layer : Nat → Nat → Nat) (x z : Nat),
        x < chunkSide → z < chunkSide →
        addChunk g X Z layer (Z * chunkSide + z) (X * chunkSide + x) = htonl (layer x z))
    ∧ ∀ layer : Nat → Nat → Nat, composite [(1, 0, layer)] 5 19 = htonl (layer 3 5) := by
  constructor
  · intro g X Z layer x z hx hz
    rw [addChunk_eval, if_pos (by omega)]
    have e1 : X * chunkSide + x - X * chunkSide = x := by omega
    have e2 : Z * chunkSide + z - Z * chunkSide = z := by omega
    rw [e1, e2]
  · intro layer
    unfold composite
    rw [applyChunks_cons, applyChunks_nil]
    show addChunk zeroGrid 1 0 layer 5 19 = htonl (layer 3 5)
    rw [addChunk_eval, if_pos (by simp only [chunkSide]; omega)]
    norm_num [chunkSide]

/-- C2 witness: the general placement law applied to the concrete chunk of
the spec's compositing test. -/
theorem chunk_column_placement_witness :
    3 < chunkSide ∧ 5 < chunkSide ∧
      addChunk zeroGrid 1 0 sampleLayer (0 * chunkSide + 5) (1 * chunkSide + 3)
        = htonl (sampleLayer 3 5) :=
  ⟨by decide, by decide,
    chunk_column_placement.1 zeroGrid 1 0 sampleLayer 3 5 (by decide) (by decide)⟩

/-- C9: the grid of a regeneration pass starts all-zero, the pass writes every
cell at most once (the write-target sequence has no duplicates when the
delivered slots are pairwise distinct), and a cell no write targets is still
zero in the composed grid. -/
theorem grid_write_once (l : List ChunkEntry) (hd : l.Pairwise slotNe) :
    (∀ r c, zeroGrid r c = 0)
    ∧ (writeEvents l).Nodup
    ∧ ∀ r c, (r, c) ∉ writeEvents l → composite l r c = 0 := by
  refine ⟨fun _ _ => rfl, ?_, ?_⟩
  · unfold writeEvents
    rw [List.nodup_flatMap]
    exact ⟨fun e _ => nodup_chunkCells e.1 e.2.1, hd.imp (fun h => chunkCells_disjoint h)⟩
  · intro r c h
    exact applyChunks_not_mem l zeroGrid r c h

/-- C9 witness: the write-once invariant at a concrete two-chunk pass. -/
theorem grid_write_once_witness :
    wChunks.Pairwise slotNe ∧
      ((∀ r c, zeroGrid r c = 0)
        ∧ (writeEvents wChunks).Nodup
        ∧ ∀ r c, (r, c) ∉ writeEvents wChunks → composite wChunks r c = 0) :=
  ⟨by simp [wChunks, List.pairwise_cons, slotNe],
    grid_write_once wChunks (by simp [wChunks, List.pairwise_cons, slotNe])⟩

/-- C10: `addChunk` applications for chunks at distinct slots commute, so the
composed grid does not depend on the (unspecified) order in which the region
visitor delivers the chunks. -/
theorem compositing_order_independent :
    (∀ (g : Grid) (X Z : Nat) (lay : Nat → Nat → Nat) (X2 Z2 : Nat)
        (lay2 : Nat → Nat → Nat), ¬(X = X2 ∧ Z = Z2) →
        addChunk (addChunk g X Z lay) X2 Z2 lay2 = addChunk (addChunk g X2 Z2 lay2) X Z lay)
    ∧ ∀ (l l2 : List ChunkEntry), l.Pairwise slotNe → l.Perm l2 → composite l = composite l2 := by
  constructor
  · exact addChunk_comm_aux
  · intro l l2 hd hp
    exact applyChunks_perm hp hd zeroGrid

/-- C10 witness: two concrete chunks delivered in either order compose to the
same grid. -/
theorem compositing_order_independent_witness :
    wChunks.Pairwise slotNe ∧ wChunks.Perm wChunksRev ∧
      composite wChunks = composite wChunksRev ∧
      addChunk (addChunk zeroGrid 0 0 sampleLayer) 1 0 sampleLayer
        = addChunk (addChunk zeroGrid 1 0 sampleLayer) 0 0 sampleLayer := by
  have hpw : wChunks.Pairwise slotNe := by simp [wChunks, List.pairwise_cons, slotNe]
  have hperm : wChunks.Perm wChunksRev := List.Perm.swap _ _ _
  exact ⟨hpw, hperm,
    compositing_order_independent.2 wChunks wChunksRev hpw hperm,
    compositing_order_independent.1 zeroGrid 0 0 sampleLayer 1 0 sampleLayer (by simp)⟩

/-! ## Helper lemmas: `doRegion` and the filesystem -/

/-- A path never equals itself with the `.tmp` suffix appended. -/
theorem ne_append_tmp (s : String) : s ≠ s ++ ".tmp" := by
  intro h
  have h2 := congrArg String.length h
  rw [String.length_append] at h2
  have h3 : String.length ".tmp" = 4 := rfl
  omega

/-- The status `doRegionGen` returns depends only on the oracles. -/
theorem doRegionGen_snd (env : Env) (fs : FS) (output : String) (t : Timespec) :
    (doRegionGen env fs output t).2 = genStatus env := by
  unfold doRegionGen genStatus
  by_cases h1 : env.decodeOk = false
  · simp [h1]
  · by_cases h2 : env.encodeOk = false
    · simp [h1, h2]
    · by_cases h3 : env.renameOk
      · simp [h1, h2, h3]
      · simp [h1, h2, h3]

/-- The generation path never reports the up-to-date or input-stat statuses. -/
theorem genStatus_regenerated (env : Env) : (genStatus env).regenerated = true := by
  unfold genStatus
  by_cases h1 : env.decodeOk = false
  · simp [h1, Status.regenerated]
  · by_cases h2 : env.encodeOk = false
    · simp [h1, h2, Status.regenerated]
    · by_cases h3 : env.renameOk
      · simp [h1, h2, h3, Status.regenerated]
      · simp [h1, h2, h3, Status.regenerated]

/-- A regenerated status is not the skipped status. -/
theorem regenerated_ne_skipped {s : Status} (h : s.regenerated = true) :
    s ≠ Status.skippedUpToDate := by
  intro he
  rw [he] at h
  exact absurd h (by decide)

/-- `genStatus` is `published` exactly when decode, encode and rename all
succeed. -/
theorem genStatus_published_iff (env : Env) :
    genStatus env = Status.published
      ↔ env.decodeOk = true ∧ env.encodeOk = true ∧ env.renameOk = true := by
  unfold genStatus
  by_cases h1 : env.decodeOk = false
  · simp [h1]
  · by_cases h2 : env.encodeOk = false
    · simp [h1, h2]
    · by_cases h3 : env.renameOk
      · simp [h1, h2, h3, eq_true_of_ne_false h1, eq_true_of_ne_false h2]
      · simp [h1, h2, h3]

/-- `doRegionGen` touches only the output path and its temporary sibling. -/
theorem doRegionGen_frame (env : Env) (fs : FS) (output : String) (t : Timespec)
    (p : String) (hp1 : p ≠ output ++ ".tmp") (hp2 : p ≠ output) :
    (doRegionGen env fs output t).1 p = fs p := by
  unfold doRegionGen updateFS
  by_cases h1 : env.decodeOk = false
  · simp [h1, hp1]
  · by_cases h2 : env.encodeOk = false
    · simp [h1, h2, hp1]
    · by_cases h3 : env.renameOk
      · by_cases h4 : env.utimeOk
        · simp [h1, h2, h3, h4, hp1, hp2]
        · simp [h1, h2, h3, h4, hp1, hp2]
      · by_cases h4 : env.utimeOk
        · simp [h1, h2, h3, h4, hp1]
        · simp [h1, h2, h3, h4, hp1]

/-- `doRegion` touches only the output path and its temporary sibling. -/
theorem doRegion_frame (env : Env) (fs : FS) (input output : String)
    (p : String) (hp1 : p ≠ output ++ ".tmp") (hp2 : p ≠ output) :
    (doRegion env fs input output).1 p = fs p := by
  unfold doRegion
  cases hin : statMtime fs input with
  | none => rfl
  | some i =>
    cases hout : statMtime fs output with
    | none => exact doRegionGen_frame env fs output i p hp1 hp2
    | some o =>
      by_cases hu : upToDateCheck i o
      · simp [hu]
      · simp only [hu, if_false, Bool.false_eq_true]
        exact doRegionGen_frame env fs output i p hp1 hp2

/-- The status `doRegion` reports depends on the filesystem only through the
two `stat` calls. -/
theorem doRegion_status_congr (env : Env) (fs1 fs2 : FS) (input output : String)
    (h1 : fs1 input = fs2 input) (h2 : fs1 output = fs2 output) :
    (doRegion env fs1 input output).2 = (doRegion env fs2 input output).2 := by
  unfold doRegion
  have e1 : statMtime fs1 input = statMtime fs2 input := by unfold statMtime; rw [h1]
  have e2 : statMtime fs1 output = statMtime fs2 output := by unfold statMtime; rw [h2]
  rw [e1, e2]
  cases statMtime fs2 input with
  | none => rfl
  | some i =>
    cases statMtime fs2 output with
    | none => rw [doRegionGen_snd, doRegionGen_snd]
    | some o =>
      by_cases hu : upToDateCheck i o
      · simp [hu]
      · simp only [hu, if_false, Bool.false_eq_true]
        rw [doRegionGen_snd, doRegionGen_snd]

/-- When everything including `utimensat` succeeds, the generation path
publishes the fully encoded grid stamped with the input's timestamp. -/
theorem doRegionGen_published_out (env : Env) (fs : FS) (output : String) (t : Timespec)
    (hdec : env.decodeOk = true) (henc : env.encodeOk = true) (hren : env.renameOk = true)
    (hutime : env.utimeOk = true) :
    (doRegionGen env fs output t).1 output = some ⟨composite env.chunks, t, t⟩ := by
  unfold doRegionGen
  simp [hdec, henc, hren, hutime, updateFS]


/-- In every non-published outcome of the generation path the output path is
untouched and no temporary file survives. -/
theorem doRegionGen_not_published (env : Env) (fs : FS) (output : String) (t : Timespec)
    (h : genStatus env ≠ Status.published) :
    (doRegionGen env fs output t).1 output = fs output ∧
      (doRegionGen env fs output t).1 (output ++ ".tmp") = none := by
  have hno := ne_append_tmp output
  unfold doRegionGen
  unfold genStatus at h
  by_cases h1 : env.decodeOk = false
  · simp [h1, updateFS, hno]
  · by_cases h2 : env.encodeOk = false
    · simp [h1, h2, updateFS, hno]
    · by_cases h3 : env.renameOk
      · simp [h1, h2, h3] at h
      · by_cases h4 : env.utimeOk
        · simp [h1, h2, h3, h4, updateFS, hno]
        · simp [h1, h2, h3, h4, updateFS, hno]

/-- `doRegion` either fails to stat the input, skips an up-to-date region, or
runs the generation path (in which case any stat'able output failed the
up-to-date test). -/
theorem doRegion_split (env : Env) (fs : FS) (input output : String) :
    (statMtime fs input = none ∧ doRegion env fs input output = (fs, Status.inputStatFail))
    ∨ (∃ i o, statMtime fs input = some i ∧ statMtime fs output = some o ∧
        upToDateCheck i o = true ∧ doRegion env fs input output = (fs, Status.skippedUpToDate))
    ∨ (∃ i, statMtime fs input = some i ∧
        (∀ o, statMtime fs output = some o → upToDateCheck i o = false) ∧
        doRegion env fs input output = doRegionGen env fs output i) := by
  unfold doRegion
  split
  · rename_i hin
    exact Or.inl ⟨hin, rfl⟩
  · rename_i i hin
    split
    · rename_i o hout
      split
      · rename_i hu
        exact Or.inr (Or.inl ⟨i, o, hin, hout, hu, rfl⟩)
      · rename_i hu
        refine Or.inr (Or.inr ⟨i, hin, ?_, rfl⟩)
        intro o2 ho2
        rw [hout] at ho2
        injection ho2 with h2
        subst h2
        exact Bool.not_eq_true _ ▸ (Bool.eq_false_iff.mpr hu)
    · rename_i hout
      refine Or.inr (Or.inr ⟨i, hin, ?_, rfl⟩)
      intro o2 ho2
      rw [hout] at ho2
      exact Option.noConfusion ho2

/-! ## Claims C1, C4, C7, C8 -/

/-- C1: given that the input can be stat'ed, `doRegion` classifies the region
as up-to-date (and skips regeneration) exactly when the output path can be
stat'ed and its modification timestamp, compared as the (seconds, then
nanoseconds as tiebreak) pair, is greater than or equal to the input's;
otherwise (output missing or strictly older) the generation path runs. -/
theorem staleness_check_correct (env : Env) (fs : FS) (input output : String)
    (i : Timespec) (hin : statMtime fs input = some i) :
    ((doRegion env fs input output).2 = Status.skippedUpToDate
      ↔ ∃ o, statMtime fs output = some o ∧
          (o.sec > i.sec ∨ (o.sec = i.sec ∧ o.nsec ≥ i.nsec)))
    ∧ ((doRegion env fs input output).2 ≠ Status.skippedUpToDate →
        ((doRegion env fs input output).2).regenerated = true) := by
  rcases doRegion_split env fs input output with ⟨hn, _⟩ |
      ⟨i2, o, hin2, hout, hu, heq⟩ | ⟨i2, hin2, hnup, heq⟩
  · rw [hin] at hn
    exact absurd hn (by simp)
  · have hi : i = i2 := by
      rw [hin] at hin2
      injection hin2 with h2
    subst hi
    rw [heq]
    have hc : i.sec < o.sec ∨ (i.sec = o.sec ∧ i.nsec ≤ o.nsec) := by
      unfold upToDateCheck at hu
      exact of_decide_eq_true hu
    refine ⟨⟨fun _ => ⟨o, hout, by omega⟩, fun _ => rfl⟩, fun h => absurd rfl h⟩
  · have hi : i = i2 := by
      rw [hin] at hin2
      injection hin2 with h2
    subst hi
    rw [heq, doRegionGen_snd]
    constructor
    · constructor
      · intro h
        exact absurd h (regenerated_ne_skipped (genStatus_regenerated env))
      · rintro ⟨o, ho, hg⟩
        exfalso
        have hf := hnup o ho
        unfold upToDateCheck at hf
        have hc : ¬(i.sec < o.sec ∨ (i.sec = o.sec ∧ i.nsec ≤ o.nsec)) :=
          of_decide_eq_false hf
        omega
    · intro _
      exact genStatus_regenerated env

/-- C1 witness: with an output strictly newer than the input, the region is
classified up-to-date. -/
theorem staleness_check_correct_witness :
    statMtime fsBoth pIn = some ⟨5, 2⟩ ∧
      (((doRegion envAllOk fsBoth pIn pOut).2 = Status.skippedUpToDate
          ↔ ∃ o, statMtime fsBoth pOut = some o ∧
              (o.sec > (5 : Int) ∨ (o.sec = (5 : Int) ∧ o.nsec ≥ (2 : Int))))
        ∧ ((doRegion envAllOk fsBoth pIn pOut).2 ≠ Status.skippedUpToDate →
            ((doRegion envAllOk fsBoth pIn pOut).2).regenerated = true)) :=
  ⟨by decide, staleness_check_correct envAllOk fsBoth pIn pOut ⟨5, 2⟩ (by decide)⟩

/-- C4: during a regeneration attempt only the temporary path and (via a
successful rename) the output path are ever written; when the final rename
fails the output path's previous content is untouched and the temporary file
is removed; the output path changes only by a successful publication. -/
theorem publish_atomicity (env : Env) (fs : FS) (input output : String) :
    (∀ p, p ≠ output ++ ".tmp" → p ≠ output → (doRegion env fs input output).1 p = fs p)
    ∧ ((doRegion env fs input output).2 = Status.renameFailed →
        (doRegion env fs input output).1 output = fs output ∧
          (doRegion env fs input output).1 (output ++ ".tmp") = none)
    ∧ ((doRegion env fs input output).2 ≠ Status.published →
        (doRegion env fs input output).1 output = fs output) := by
  refine ⟨fun p hp1 hp2 => doRegion_frame env fs input output p hp1 hp2, ?_, ?_⟩
  · intro hst
    rcases doRegion_split env fs input output with ⟨_, heq⟩ |
        ⟨_, _, _, _, _, heq⟩ | ⟨i, _, _, heq⟩
    · rw [heq] at hst
      simp at hst
    · rw [heq] at hst
      simp at hst
    · rw [heq] at hst ⊢
      rw [doRegionGen_snd] at hst
      exact doRegionGen_not_published env fs output i (by rw [hst]; decide)
  · intro hst
    rcases doRegion_split env fs input output with ⟨_, heq⟩ |
        ⟨_, _, _, _, _, heq⟩ | ⟨i, _, _, heq⟩
    · rw [heq]
    · rw [heq]
    · rw [heq] at hst ⊢
      rw [doRegionGen_snd] at hst
      exact (doRegionGen_not_published env fs output i hst).1

/-- C4 witness: a failing rename leaves the previous output in place and
removes the temporary file, and an unrelated path is never touched. -/
theorem publish_atomicity_witness :
    (doRegion envNoRename fsIn pIn pOut).2 = Status.renameFailed ∧
      ((doRegion envNoRename fsIn pIn pOut).1 pOut = fsIn pOut ∧
        (doRegion envNoRename fsIn pIn pOut).1 (pOut ++ ".tmp") = none) ∧
      (doRegion envNoRename fsIn pIn pOut).1 dIn = fsIn dIn :=
  ⟨by decide,
    (publish_atomicity envNoRename fsIn pIn pOut).2.1 (by decide),
    (publish_atomicity envNoRename fsIn pIn pOut).1 dIn (by decide) (by decide)⟩

/-- The reported outcome never depends on whether `utimensat` succeeded. -/
theorem doRegion_snd_utime (env : Env) (b : Bool) (fs : FS) (input output : String) :
    (doRegion { env with utimeOk := b } fs input output).2
      = (doRegion env fs input output).2 := by
  obtain ⟨d, ch, e, t, u, r⟩ := env
  unfold doRegion
  split
  · rfl
  · split
    · split
      · rfl
      · rw [doRegionGen_snd, doRegionGen_snd]
        rfl
    · rw [doRegionGen_snd, doRegionGen_snd]
      rfl

/-- C7 counterexample: when `utimensat` fails (a warning only), the region is
still published but the published file keeps the encode-time stamp (9 s,
9 ns), which differs from the input's modification time (5 s, 2 ns) — so the
claim's unconditional "output mtime equals input mtime after every successful
regeneration" is false on the code. -/
theorem timestamp_propagation_counterexample :
    statMtime fsIn pIn = some ⟨5, 2⟩ ∧
      (doRegion envNoUtime fsIn pIn pOut).2 = Status.published ∧
      statMtime (doRegion envNoUtime fsIn pIn pOut).1 pOut = some ⟨9, 9⟩ ∧
      some (⟨9, 9⟩ : Timespec) ≠ some (⟨5, 2⟩ : Timespec) :=
  ⟨by decide, by decide, by decide, by decide⟩

/-- C7 (amended): after a successful regeneration in which `utimensat`
succeeded, the published output's modification and access times equal the
input's modification time; and a `utimensat` failure never changes the
reported outcome (publication still proceeds). -/
theorem timestamp_propagation (env : Env) (fs : FS) (input output : String)
    (i : Timespec) (hin : statMtime fs input = some i) (hutime : env.utimeOk = true)
    (hpub : (doRegion env fs input output).2 = Status.published) :
    (∃ f, (doRegion env fs input output).1 output = some f ∧ f.mtime = i ∧ f.atime = i)
    ∧ ∀ b : Bool,
        (doRegion { env with utimeOk := b } fs input output).2
          = (doRegion env fs input output).2 := by
  refine ⟨?_, fun b => doRegion_snd_utime env b fs input output⟩
  rcases doRegion_split env fs input output with ⟨_, heq⟩ |
      ⟨_, _, _, _, _, heq⟩ | ⟨i2, hin2, _, heq⟩
  · rw [heq] at hpub
    simp at hpub
  · rw [heq] at hpub
    simp at hpub
  · have hi : i = i2 := by
      rw [hin] at hin2
      injection hin2 with h2
    subst hi
    rw [heq] at hpub ⊢
    rw [doRegionGen_snd] at hpub
    obtain ⟨hdec, henc, hren⟩ := (genStatus_published_iff env).mp hpub
    exact ⟨_, doRegionGen_published_out env fs output i hdec henc hren hutime, rfl, rfl⟩

/-- C7 witness: with `utimensat` succeeding, the published file carries the
input's timestamp on both mtime and atime. -/
theorem timestamp_propagation_witness :
    statMtime fsIn pIn = some ⟨5, 2⟩ ∧ envAllOk.utimeOk = true ∧
      (doRegion envAllOk fsIn pIn pOut).2 = Status.published ∧
      ((∃ f, (doRegion envAllOk fsIn pIn pOut).1 pOut = some f ∧
          f.mtime = ⟨5, 2⟩ ∧ f.atime = ⟨5, 2⟩)
        ∧ ∀ b : Bool,
            (doRegion { envAllOk with utimeOk := b } fsIn pIn pOut).2
              = (doRegion envAllOk fsIn pIn pOut).2) :=
  ⟨by decide, by decide, by decide,
    timestamp_propagation envAllOk fsIn pIn pOut ⟨5, 2⟩ (by decide) (by decide) (by decide)⟩

/-- C8 counterexample: a first run in which `utimensat` failed and the encode
wall-clock stamp (4 s) is older than the input's mtime (5 s) publishes
successfully, yet the second run over unchanged inputs regenerates (and
re-encodes, here publishing again) instead of reporting up-to-date — so the
claim's unconditional "second run performs zero re-encodes" is false on the
code. -/
theorem second_run_counterexample :
    (doRegion envNoUtimeOld fsIn pIn pOut).2 = Status.published ∧
      (doRegion envAllOk (doRegion envNoUtimeOld fsIn pIn pOut).1 pIn pOut).2
        = Status.published ∧
      ((doRegion envAllOk (doRegion envNoUtimeOld fsIn pIn pOut).1 pIn pOut).2).regenerated
        = true ∧
      (doRegion envAllOk (doRegion envNoUtimeOld fsIn pIn pOut).1 pIn pOut).2
        ≠ Status.skippedUpToDate :=
  ⟨by decide, by decide, by decide, by decide⟩

/-- C8 (amended): a region published with `utimensat` succeeding is classified
up-to-date by an immediately following run over unchanged inputs, because the
output's timestamp was set equal to the input's and the staleness check
accepts equal timestamps. -/
theorem second_run_up_to_date (env1 env2 : Env) (fs : FS) (input output : String)
    (i : Timespec) (hin : statMtime fs input = some i) (hutime : env1.utimeOk = true)
    (hpub : (doRegion env1 fs input output).2 = Status.published)
    (hio : input ≠ output) (hit : input ≠ output ++ ".tmp") :
    (doRegion env2 (doRegion env1 fs input output).1 input output).2
      = Status.skippedUpToDate := by
  have hin2 : statMtime (doRegion env1 fs input output).1 input = some i := by
    unfold statMtime
    rw [doRegion_frame env1 fs input output input hit hio]
    exact hin
  have hout2 : statMtime (doRegion env1 fs input output).1 output = some i := by
    rcases doRegion_split env1 fs input output with ⟨_, heq⟩ |
        ⟨_, _, _, _, _, heq⟩ | ⟨i2, hin3, _, heq⟩
    · rw [heq] at hpub
      simp at hpub
    · rw [heq] at hpub
      simp at hpub
    · have hi : i = i2 := by
        rw [hin] at hin3
        injection hin3 with h2
      subst hi
      rw [heq] at hpub ⊢
      rw [doRegionGen_snd] at hpub
      obtain ⟨hdec, henc, hren⟩ := (genStatus_published_iff env1).mp hpub
      unfold statMtime
      rw [doRegionGen_published_out env1 fs output i hdec henc hren hutime]
      rfl
  rcases doRegion_split env2 (doRegion env1 fs input output).1 input output with ⟨hn, _⟩ |
      ⟨_, _, _, _, _, heq⟩ | ⟨i2, hin3, hnup, heq⟩
  · rw [hin2] at hn
    exact absurd hn (by simp)
  · rw [heq]
  · have hi : i = i2 := by
      rw [hin2] at hin3
      injection hin3 with h2
    subst hi
    exfalso
    have hf := hnup i hout2
    unfold upToDateCheck at hf
    have hc := of_decide_eq_false hf
    omega

/-- C8 witness: a concrete fully successful first run makes the second run
report up-to-date. -/
theorem second_run_up_to_date_witness :
    statMtime fsIn pIn = some ⟨5, 2⟩ ∧ envAllOk.utimeOk = true ∧
      (doRegion envAllOk fsIn pIn pOut).2 = Status.published ∧ pIn ≠ pOut ∧
      pIn ≠ pOut ++ ".tmp" ∧
      (doRegion envAllOk (doRegion envAllOk fsIn pIn pOut).1 pIn pOut).2
        = Status.skippedUpToDate :=
  ⟨by decide, by decide, by decide, by decide, by decide,
    second_run_up_to_date envAllOk envAllOk fsIn pIn pOut ⟨5, 2⟩ (by decide) (by decide)
      (by decide) (by decide) (by decide)⟩

/-! ## Helper lemmas: filename validation -/

/-- The truncated-`snprintf` + `memcmp` comparison accepts a NUL-free name
exactly when the name is a prefix (proper or full) of the canonical
formatting. -/
theorem isPrefixOf_nul_iff (n s : List Char) (hn : nulChar ∉ n) :
    List.isPrefixOf (s.take n.length ++ [nulChar]) (n ++ [nulChar]) = true ↔ n <+: s := by
  rw [List.isPrefixOf_iff_prefix]
  constructor
  · intro h
    by_cases hl : n.length ≤ s.length
    · have hlen : (s.take n.length).length = n.length := by
        rw [List.length_take]
        omega
      have heq : s.take n.length ++ [nulChar] = n ++ [nulChar] :=
        h.eq_of_length (by simp [hlen])
      have h2 : s.take n.length = n := (List.append_inj heq (by simp [hlen])).1
      rw [← h2]
      exact List.take_prefix _ _
    · push_neg at hl
      have htake : s.take n.length = s := List.take_of_length_le (by omega)
      rw [htake] at h
      have h2 : s ++ [nulChar] = (n ++ [nulChar]).take (s ++ [nulChar]).length :=
        List.prefix_iff_eq_take.mp h
      rw [List.length_append, List.take_append_of_le_length (by simp; omega)] at h2
      have h3 : nulChar ∈ n.take (s.length + [nulChar].length) := by
        rw [← h2]
        simp
      exact absurd (List.mem_of_mem_take h3) hn
  · intro h
    have h2 : n = s.take n.length := List.prefix_iff_eq_take.mp h
    rw [← h2]

/-- Unfolding `checkNameChars` when the scan fails. -/
theorem checkNameChars_eq_none (name : List Char) (hs : scanName name = none) :
    checkNameChars name = none := by
  unfold checkNameChars
  rw [hs]

/-- Unfolding `checkNameChars` when the scan succeeds. -/
theorem checkNameChars_eq_scan (name : List Char) (x z : Int)
    (hs : scanName name = some (x, z)) :
    checkNameChars name =
      if List.isPrefixOf ((formatName x z).take name.length ++ [nulChar]) (name ++ [nulChar])
      then some (x, z) else none := by
  unfold checkNameChars
  rw [hs]

/-! ## Claim C3 -/

/-- C3 counterexample: the entry `r.1.2` is accepted by the source's
validation (the `snprintf` buffer is truncated to `strlen(name)+1` bytes, so
the `memcmp` only compares a prefix of the canonical formatting), even though
re-formatting the parsed coordinates yields `r.1.2.mca`, which does not
reproduce the original name byte-for-byte — refuting the claimed "if and only
if". -/
theorem filename_roundtrip_counterexample :
    checkNameChars nmPre.data = some (1, 2) ∧
      scanName nmPre.data = some (1, 2) ∧
      formatName 1 2 ≠ nmPre.data ∧
      formatName 1 2 ++ [nulChar] ≠ nmPre.data ++ [nulChar] :=
  ⟨by decide, by decide, by decide, by decide⟩

/-- C3 (amended): a NUL-free directory entry is accepted exactly when the
`r.%i.%i.mca` scan yields two integers whose canonical re-formatting,
truncated to the entry's length as `snprintf` truncates it, reproduces the
entry byte-for-byte including the terminating byte — equivalently, when the
entry is a (possibly proper) prefix of the canonical formatting; in
particular `r.01.2.mca` (leading zero, scanned as octal `01`) is rejected and
`r.-5.10.mca` is accepted with X = -5, Z = 10. -/
theorem filename_validation (name : List Char) (hn : nulChar ∉ name) :
    ((checkNameChars name).isSome = true
      ↔ ∃ x z, scanName name = some (x, z) ∧ name <+: formatName x z)
    ∧ checkNameChars nm01.data = none
    ∧ checkNameChars nmNeg.data = some (-5, 10) := by
  refine ⟨?_, by decide, by decide⟩
  cases hs : scanName name with
  | none =>
    rw [checkNameChars_eq_none name hs]
    simp only [Option.isSome_none, Bool.false_eq_true, false_iff]
    rintro ⟨x, z, hx, _⟩
    exact Option.noConfusion hx
  | some p =>
    obtain ⟨x, z⟩ := p
    rw [checkNameChars_eq_scan name x z hs]
    by_cases hp : List.isPrefixOf ((formatName x z).take name.length ++ [nulChar])
        (name ++ [nulChar]) = true
    · rw [if_pos hp]
      simp only [Option.isSome_some, true_iff]
      exact ⟨x, z, rfl, (isPrefixOf_nul_iff name (formatName x z) hn).mp hp⟩
    · rw [if_neg hp]
      simp only [Option.isSome_none, Bool.false_eq_true, false_iff]
      rintro ⟨x2, z2, hx2, hpre⟩
      injection hx2 with h2
      injection h2 with h3 h4
      subst h3
      subst h4
      exact hp ((isPrefixOf_nul_iff name (formatName x z) hn).mpr hpre)

/-- C3 witness: the amended validation law evaluated at the accepted
negative-coordinate entry. -/
theorem filename_validation_witness :
    nulChar ∉ nmNeg.data ∧
      (((checkNameChars nmNeg.data).isSome = true
          ↔ ∃ x z, scanName nmNeg.data = some (x, z) ∧ nmNeg.data <+: formatName x z)
        ∧ checkNameChars nm01.data = none
        ∧ checkNameChars nmNeg.data = some (-5, 10)) :=
  ⟨by decide, filename_validation nmNeg.data (by decide)⟩

/-! ## Claims C5, C6 -/

/-- C5: the batch visits every validated directory entry exactly once, in
order, whatever each region's outcome is (one diagnostic per entry, no
abort); the exit code never depends on the entries or the filesystem; and
concretely, when `r.0.0.mca` reaches the generation path and fails to decode,
`r.1.0.mca` in the same batch is still processed, with the very outcome it
would have alone on the starting filesystem. -/
theorem batch_failure_isolation :
    (∀ (inputdir outputdir : String) (entries : List (String × Env)) (fs : FS),
        ((runBatch inputdir outputdir fs entries).2).map Prod.fst
          = (entries.filter (fun e => checkName e.1)).map Prod.fst)
    ∧ (∀ (argc : Nat) (opendirOk : Bool) (i1 o1 : String)
        (en1 : List (String × Env)) (f1 : FS) (i2 o2 : String)
        (en2 : List (String × Env)) (f2 : FS),
        (mainRun argc opendirOk i1 o1 en1 f1).1 = (mainRun argc opendirOk i2 o2 en2 f2).1)
    ∧ ∀ (inputdir outputdir : String) (fs : FS) (env1 env2 : Env) (t1 : Timespec),
        env1.decodeOk = false →
        statMtime fs (regionInputPath inputdir nm00) = some t1 →
        statMtime fs (regionOutputPath outputdir nm00) = none →
        regionInputPath inputdir nm10 ≠ regionOutputPath outputdir nm00 →
        regionInputPath inputdir nm10 ≠ regionOutputPath outputdir nm00 ++ ".tmp" →
        regionOutputPath outputdir nm10 ≠ regionOutputPath outputdir nm00 →
        regionOutputPath outputdir nm10 ≠ regionOutputPath outputdir nm00 ++ ".tmp" →
        (runBatch inputdir outputdir fs [(nm00, env1), (nm10, env2)]).2
          = [(nm00, Status.decodeFailed),
             (nm10, (doRegion env2 fs (regionInputPath inputdir nm10)
                       (regionOutputPath outputdir nm10)).2)] := by
  refine ⟨?_, ?_, ?_⟩
  · intro inputdir outputdir entries fs
    induction entries generalizing fs with
    | nil => rfl
    | cons e rest ih =>
      by_cases hc : checkName e.1 = true
      · simp [runBatch, hc, List.filter_cons, ih]
      · simp [runBatch, hc, List.filter_cons, ih]
  · intro argc opendirOk i1 o1 en1 f1 i2 o2 en2 f2
    unfold mainRun
    by_cases h1 : argc < 3
    · simp [h1]
    · by_cases h2 : opendirOk = false
      · simp [h1, h2]
      · simp [h1, h2]
  · intro inputdir outputdir fs env1 env2 t1 hdec hstatIn hstatOut hne1 hne2 hne3 hne4
    have hc1 : checkName nm00 = true := by decide
    have hc2 : checkName nm10 = true := by decide
    have hs1 : (doRegion env1 fs (regionInputPath inputdir nm00)
        (regionOutputPath outputdir nm00)).2 = Status.decodeFailed := by
      rcases doRegion_split env1 fs (regionInputPath inputdir nm00)
          (regionOutputPath outputdir nm00) with ⟨hn, _⟩ | ⟨i, o, _, hout, _, _⟩ |
          ⟨i, _, _, heq⟩
      · rw [hstatIn] at hn
        exact absurd hn (by simp)
      · rw [hstatOut] at hout
        exact absurd hout (by simp)
      · rw [heq, doRegionGen_snd]
        unfold genStatus
        rw [hdec]
        rfl
    have hframe1 : (doRegion env1 fs (regionInputPath inputdir nm00)
        (regionOutputPath outputdir nm00)).1 (regionInputPath inputdir nm10)
          = fs (regionInputPath inputdir nm10) :=
      doRegion_frame env1 fs _ _ _ hne2 hne1
    have hframe2 : (doRegion env1 fs (regionInputPath inputdir nm00)
        (regionOutputPath outputdir nm00)).1 (regionOutputPath outputdir nm10)
          = fs (regionOutputPath outputdir nm10) :=
      doRegion_frame env1 fs _ _ _ hne4 hne3
    have hs2 : (doRegion env2 (doRegion env1 fs (regionInputPath inputdir nm00)
          (regionOutputPath outputdir nm00)).1 (regionInputPath inputdir nm10)
          (regionOutputPath outputdir nm10)).2
        = (doRegion env2 fs (regionInputPath inputdir nm10)
            (regionOutputPath outputdir nm10)).2 :=
      doRegion_status_congr env2 _ fs _ _ hframe1 hframe2
    simp only [runBatch, hc1, hc2, if_true]
    rw [hs1, hs2]

/-- C5 witness: a concrete two-region batch in which the first region fails
to decode and the second is still processed. -/
theorem batch_failure_isolation_witness :
    envNoDecode.decodeOk = false ∧
      statMtime fsBatch (regionInputPath dIn nm00) = some ⟨5, 2⟩ ∧
      statMtime fsBatch (regionOutputPath dOut nm00) = none ∧
      regionInputPath dIn nm10 ≠ regionOutputPath dOut nm00 ∧
      regionInputPath dIn nm10 ≠ regionOutputPath dOut nm00 ++ ".tmp" ∧
      regionOutputPath dOut nm10 ≠ regionOutputPath dOut nm00 ∧
      regionOutputPath dOut nm10 ≠ regionOutputPath dOut nm00 ++ ".tmp" ∧
      (runBatch dIn dOut fsBatch [(nm00, envNoDecode), (nm10, envAllOk)]).2
        = [(nm00, Status.decodeFailed),
           (nm10, (doRegion envAllOk fsBatch (regionInputPath dIn nm10)
                     (regionOutputPath dOut nm10)).2)] :=
  ⟨by decide, by decide, by decide, by decide, by decide, by decide, by decide,
    batch_failure_isolation.2.2 dIn dOut fsBatch envNoDecode envAllOk ⟨5, 2⟩ (by decide)
      (by decide) (by decide) (by decide) (by decide) (by decide) (by decide)⟩

/-- C6 counterexample: with three command-line operands (`argc = 4`) the
argument count is wrong by the spec's CLI surface, yet the program proceeds
and exits 0 — refuting "exit code 1 exactly when the argument count is
wrong". -/
theorem exit_code_counterexample :
    specWrongArgCount 4 ∧ (mainRun 4 true dIn dOut [] fsEmpty).1 = 0 :=
  ⟨by unfold specWrongArgCount; decide, rfl⟩

/-- C6 (amended): the program exits 1 exactly when fewer than two operands
are supplied (`argc < 3`) or the region directory cannot be opened, and exits
0 in every other case — extra operands beyond the second are ignored, and
per-region outcomes never reach the exit code. -/
theorem exit_code (argc : Nat) (opendirOk : Bool) (inputdir outputdir : String)
    (entries : List (String × Env)) (fs : FS) :
    ((mainRun argc opendirOk inputdir outputdir entries fs).1 = 1
      ↔ (argc < 3 ∨ opendirOk = false))
    ∧ ((argc < 3 ∨ opendirOk = false)
        ∨ (mainRun argc opendirOk inputdir outputdir entries fs).1 = 0) := by
  unfold mainRun
  by_cases h1 : argc < 3
  · simp [h1]
  · by_cases h2 : opendirOk = false
    · simp [h1, h2]
    · simp [h1, h2]
